import Mathlib

/-!
Verification of the PocketLM browser-extension capture flow.

This development shallowly embeds the capture logic of the extension:
the background script (context menu, keyboard command, ephemeral capture
buffer, fresh-page-context probe with its PDF classifier) and the
CaptureView component (command router, capture dispatcher, PDF file
upload).  Host-environment functions that the code merely calls
(JSON.parse, the URL constructor, fetch, the backend HTTP client, tab
queries) are modelled as components of an explicit environment record;
everything the repository itself computes is embedded as executable
Lean definitions mirroring the source.
-/

namespace PocketLM

/-! ## String utilities

Executable ASCII models of the JavaScript string operations the source
uses: toLowerCase, startsWith, endsWith, includes, trim and split.
All strings handled by the capture flow in the claims are ASCII, where
these agree with the JavaScript semantics.
-/

/-- Does the first list lead (occur as an initial segment of) the second? -/
def leadsWith : List Char → List Char → Bool
  | [], _ => true
  | _ :: _, [] => false
  | a :: as, b :: bs => (a = b) && leadsWith as bs

/-- Model of String.prototype.startsWith. -/
def strStarts (s p : String) : Bool := leadsWith p.data s.data

/-- Model of String.prototype.endsWith. -/
def strEnds (s p : String) : Bool := leadsWith p.data.reverse s.data.reverse

/-- Does pattern `p` occur somewhere in `s`? -/
def occursIn (p : List Char) : List Char → Bool
  | [] => p.isEmpty
  | b :: bs => leadsWith p (b :: bs) || occursIn p bs

/-- Model of String.prototype.includes. -/
def strIncludes (s p : String) : Bool := occursIn p.data s.data

/-- ASCII lower-casing of one character, as both toLowerCase and
Char.toLower do on the Basic Latin range. -/
def lowerChar (c : Char) : Char :=
  if 65 ≤ c.toNat && c.toNat ≤ 90 then Char.ofNat (c.toNat + 32) else c

/-- Model of String.prototype.toLowerCase (ASCII range). -/
def strLower (s : String) : String := String.mk (s.data.map lowerChar)

/-- ASCII whitespace recognizer used by the trim model. -/
def isWsChar (c : Char) : Bool := c = ' ' || c = '\t' || c = '\n' || c = '\r'

/-- Model of String.prototype.trim (ASCII whitespace). -/
def trimmed (s : String) : String :=
  String.mk (((s.data.dropWhile isWsChar).reverse.dropWhile isWsChar).reverse)

/-- Model of String.prototype.split with a one-character separator:
`splitChar c l` returns the chunks between occurrences of `c`,
including empty chunks, never returning an empty list. -/
def splitChar (c : Char) : List Char → List (List Char)
  | [] => [[]]
  | a :: as =>
    let r := splitChar c as
    if a = c then [] :: r
    else
      match r with
      | [] => [[a]]
      | h :: t => (a :: h) :: t

/-! ## JavaScript value model

`JSON.parse` results and the values flowing through the dispatcher are
modelled by a small inductive of JavaScript values.  `Option JsValue`
stands for a possibly-undefined value (`none` = `undefined`).
-/

inductive JsValue where
  | vnull : JsValue
  | vbool : Bool → JsValue
  | vnum : Int → JsValue
  | vstr : String → JsValue
  | varr : List JsValue → JsValue
  | vobj : List (String × JsValue) → JsValue

/-- Property lookup keeping the last binding of a duplicated key, as
JSON.parse does for duplicate object keys. -/
def lookupLast : List (String × JsValue) → String → Option JsValue
  | [], _ => none
  | (k', v) :: rest, k =>
    match lookupLast rest k with
    | some r => some r
    | none => if k' = k then some v else none

/-- Property access `v.k` for values on which access does not throw:
the bound value on objects, `none` (undefined) on absent keys and on
non-null primitives and arrays (none of the keys read here is a
built-in property of those).  Access on null throws a TypeError in
JavaScript; that case is excluded here and handled explicitly at the
one place the dispatcher can access a property of null (the
`captureData.type` test of the routing, see `routeCapture`). -/
def getField (v : JsValue) (k : String) : Option JsValue :=
  match v with
  | JsValue.vobj fs => lookupLast fs k
  | _ => none

/-- Discriminator for the JavaScript null value. -/
def isNullJs : JsValue → Bool
  | JsValue.vnull => true
  | _ => false

/-- JavaScript truthiness of a possibly-undefined value. -/
def truthy : Option JsValue → Bool
  | none => false
  | some JsValue.vnull => false
  | some (JsValue.vbool b) => b
  | some (JsValue.vnum n) => n ≠ 0
  | some (JsValue.vstr s) => s ≠ ""
  | some (JsValue.varr _) => true
  | some (JsValue.vobj _) => true

/-- Strict string comparison `v.k === lit`: true exactly when field `k`
of `v` is the string `lit`. -/
def isStrField (v : JsValue) (k lit : String) : Bool :=
  match getField v k with
  | some (JsValue.vstr t) => t = lit
  | _ => false

/-! ## Background script (src/entrypoints/background.ts)

The ephemeral capture buffer is the module-level `capturedText`
variable.  The three relevant events are a context-menu click, a
keyboard command, and a `GET_CAPTURED_TEXT` message from the popup.
-/

inductive BgEvent where
  | contextMenuClicked : String → Option String → BgEvent
  | command : String → BgEvent
  | getCapturedText : BgEvent

/-- Result of one background event: the new buffer contents, the
response sent to the popup (for `GET_CAPTURED_TEXT`), and whether the
popup was opened. -/
structure BgOut where
  newText : String
  response : Option String
  openedPopup : Bool
deriving DecidableEq

/-- One step of the background message/event loop, mirroring the three
listeners in background.ts.  The context-menu handler stores
`info.selectionText || ''` and opens the popup; the `capture-url`
command handler only opens the popup; `GET_CAPTURED_TEXT` responds with
the buffer and clears it. -/
def bgStep (capturedText : String) : BgEvent → BgOut
  | BgEvent.contextMenuClicked menuItemId selectionText =>
    if menuItemId = "capture-in-pocketlm" then
      ⟨selectionText.getD "", none, true⟩
    else ⟨capturedText, none, false⟩
  | BgEvent.command c =>
    if c = "capture-url" then ⟨capturedText, none, true⟩
    else ⟨capturedText, none, false⟩
  | BgEvent.getCapturedText => ⟨"", some capturedText, false⟩

/-- Buffer contents after a sequence of context-menu captures. -/
def bgRunSets (st : String) (vs : List String) : String :=
  vs.foldl
    (fun s v =>
      (bgStep s (BgEvent.contextMenuClicked "capture-in-pocketlm" (some v))).newText)
    st

/-! ### Fresh page context (GET_FRESH_CONTEXT handler) -/

structure PageContext where
  selectedText : String
  currentUrl : String
  pageTitle : String
  isPdf : Bool
  pdfSource : String
deriving DecidableEq

/-- The layered PDF detection heuristic of the GET_FRESH_CONTEXT
handler, disjunct for disjunct in source order. -/
def isPdfOf (url title : String) : Bool :=
  let urlLower := strLower url
  strEnds urlLower ".pdf" ||
  strIncludes urlLower ".pdf" ||
  strIncludes urlLower "/pdf/" ||
  strIncludes urlLower "pdf=" ||
  (strIncludes urlLower "file=" && strIncludes urlLower "pdf") ||
  (strIncludes urlLower "drive.google.com" && strIncludes urlLower "/file/d/") ||
  strIncludes urlLower "pdfviewer" ||
  strIncludes urlLower "pdf-viewer" ||
  strEnds (strLower title) ".pdf" ||
  (strStarts urlLower "chrome-extension://" && strIncludes urlLower "pdf")

/-- PDF source classification: local exactly for file:// URLs. -/
def pdfSourceOf (url : String) : String :=
  if strStarts url "file://" then "local" else "online"

/-- Active-tab data as the handler reads it (url and title may be
undefined on the tab object). -/
structure TabInfo where
  url : Option String
  title : Option String

/-- The GET_FRESH_CONTEXT response: `none` when no active tab exists,
otherwise the context built from the tab URL, title and the
best-effort selection text (empty when script injection failed). -/
def getFreshContext (tab : Option TabInfo) (selectedText : String) :
    Option PageContext :=
  match tab with
  | none => none
  | some t =>
    let url := t.url.getD ""
    let title := t.title.getD ""
    some ⟨selectedText, url, title, isPdfOf url title, pdfSourceOf url⟩

/-! ## CaptureView component (the current version, with PDF upload)

State is the React state relevant to saving; the environment collects
the host functions the component calls: JSON.parse, the URL
constructor, the active-tab query, fetch, the backend client and the
stringification of non-string values.
-/

/-- An uploaded or constructed File object: name, MIME type, bytes. -/
structure FileV where
  name : String
  ftype : String
  content : List Nat
deriving DecidableEq

/-- The argument object of a captureKnowledge call (the multipart
capture request): type, knowledge base, and the optional url,
selection and pdf parts. -/
structure CaptureParams where
  ctype : String
  knowledge_base : String
  url : Option JsValue
  selection : Option JsValue
  pdf : Option FileV

/-- A toast notification shown to the user. -/
structure Toast where
  title : String
  description : String
deriving DecidableEq

/-- Host environment of the component.  `jsonParse s` is the result of
`JSON.parse(s)` (`none` = exception); `urlOkVal v` tells whether
`new URL(v)` succeeds; `currentTabUrl` is `tabs[0]?.url || ''` of the
active-tab query; `fetchCheck v` is the outcome of `fetch(v)` on a PDF
URL (ok payload bytes, or the error message thrown for a failed or
non-ok response; fetch coerces a non-string argument to a string, so
it takes the value); `backend p` is the captureKnowledge call (ok
message or normalized error message); `toStr v` is `String(v)` for
non-string values; `splitTypeErr` is the TypeError message raised when
`.split` is called on a non-string url field; `nullReadErr` is the
TypeError message raised by reading the type property of null. -/
structure HostEnv where
  jsonParse : String → Option JsValue
  urlOkVal : JsValue → Bool
  currentTabUrl : String
  fetchCheck : JsValue → Except String (List Nat)
  backend : CaptureParams → Except String String
  toStr : JsValue → String
  splitTypeErr : String
  nullReadErr : String

/-- The component state touched by the save flow. -/
structure SaveState where
  capturedText : String
  selectedPdfFile : Option FileV
  selectedKnowledgeBase : String

/-! ### Command router -/

/-- A slash-command descriptor shown in the dropdown. -/
structure CommandDesc where
  command : String
  description : String
  available : Bool
deriving DecidableEq

/-- updateAvailableCommands: the fixed three-command list computed from
the page context flags. -/
def updateAvailableCommands (hasSelection isPdf : Bool) : List CommandDesc :=
  [⟨"/select", "Capture selected text", hasSelection⟩,
   ⟨"/url", "Capture current page URL", true⟩,
   ⟨"/pdf", "Capture PDF document", isPdf⟩]

/-- The hasSelection flag computed from a fresh page context
(`!!context.selectedText`). -/
def hasSelectionOf (c : PageContext) : Bool := c.selectedText ≠ ""

/-- The dropdown filter: only commands with `available === true`. -/
def availableCmds (cmds : List CommandDesc) : List CommandDesc :=
  cmds.filter (fun c => c.available)

/-! ### Capture dispatcher -/

/-- The isUrl helper applied to a possibly-undefined value: the code
calls `new URL(text)` and reports whether it throws.  `new URL` on
`undefined` always throws (the string "undefined" has no scheme). -/
def isUrlValue (env : HostEnv) : Option JsValue → Bool
  | none => false
  | some v => env.urlOkVal v

/-- String(v) as used when a non-string value becomes a file name: the
identity on strings, host-defined otherwise. -/
def jsToStr (env : HostEnv) : JsValue → String
  | JsValue.vstr s => s
  | v => env.toStr v

/-- The handleSave fallback classification: parse the field as JSON,
else wrap the plain text as a url or selection descriptor according to
isUrl. -/
def parseOrClassify (env : HostEnv) (text : String) : JsValue :=
  match env.jsonParse text with
  | some v => v
  | none =>
    JsValue.vobj
      [("type", JsValue.vstr (if env.urlOkVal (JsValue.vstr text) then "url" else "selection")),
       ("content", JsValue.vstr text)]

/-- The file name of a fetched PDF:
`captureData.title || captureData.url.split('/').pop() || 'document.pdf'`
(this is the second and third fallback, for a url known to be the
string `u`). -/
def lastSegName (u : String) : String :=
  let seg := String.mk ((splitChar '/' u.data).getLastD [])
  if seg = "" then "document.pdf" else seg

/-- Full file-name computation including the title fallback chain, for
a url field known to be the string `u`. -/
def pdfFileName (env : HostEnv) (d : JsValue) (u : String) : String :=
  match getField d "title" with
  | some t => if truthy (some t) then jsToStr env t else lastSegName u
  | none => lastSegName u

/-- The `url.split('/').pop() || 'document.pdf'` part of the file-name
chain, evaluated on the url value: on a string it yields the last path
segment (default document.pdf); on any other value `.split` is not a
function and a TypeError is thrown. -/
def lastSegOf (env : HostEnv) : JsValue → Except String String
  | JsValue.vstr u => Except.ok (lastSegName u)
  | _ => Except.error env.splitTypeErr

/-- The whole file-name chain
`captureData.title || captureData.url.split('/').pop() || 'document.pdf'`:
a truthy title short-circuits (so `.split` is never reached), otherwise
the url value is split — throwing when it is not a string. -/
def pdfFileNameE (env : HostEnv) (d uval : JsValue) : Except String String :=
  match getField d "title" with
  | some t =>
    if truthy (some t) then Except.ok (jsToStr env t)
    else lastSegOf env uval
  | none => lastSegOf env uval

/-- handlePdfCapture of the current CaptureView, in source evaluation
order: for a truthy url, optionally toast a download notice (online
source), fetch the url value (fetch string-coerces a non-string
argument), then compute the file name by the title / split / default
chain (only here can a non-string url throw, and only when the title
is falsy), wrap the bytes as a File and issue one pdf capture; rethrow
fetch, file-name and backend failures with their own messages; without
a truthy url, throw "No PDF URL provided".  Result: issued capture
calls, toasts shown, and the pending exception message if any. -/
def handlePdfCapture (env : HostEnv) (kb : String) (d : JsValue) :
    List CaptureParams × List Toast × Option String :=
  match getField d "url" with
  | some uval =>
    if truthy (some uval) then
      let dl : List Toast :=
        if isStrField d "source" "online" then
          [⟨"Downloading PDF...", "Fetching PDF from URL"⟩]
        else []
      match env.fetchCheck uval with
      | Except.error e => ([], dl, some e)
      | Except.ok blob =>
        match pdfFileNameE env d uval with
        | Except.error e => ([], dl, some e)
        | Except.ok fileName =>
          let file : FileV := ⟨fileName, "application/pdf", blob⟩
          let p : CaptureParams := ⟨"pdf", kb, none, none, some file⟩
          match env.backend p with
          | Except.ok msg => ([p], dl ++ [⟨"✓ PDF captured!", msg⟩], none)
          | Except.error e => ([p], dl, some e)
    else ([], [], some "No PDF URL provided")
  | none => ([], [], some "No PDF URL provided")

/-- handleUrlCapture: one url capture; success toast carries the
backend message, a backend failure propagates. -/
def handleUrlCapture (env : HostEnv) (kb : String) (content : Option JsValue) :
    List CaptureParams × List Toast × Option String :=
  let p : CaptureParams := ⟨"url", kb, content, none, none⟩
  match env.backend p with
  | Except.ok msg => ([p], [⟨"✓ URL captured!", msg⟩], none)
  | Except.error e => ([p], [], some e)

/-- handleSelectionCapture: queries the active tab for the page URL and
issues one selection capture with it. -/
def handleSelectionCapture (env : HostEnv) (kb : String) (content : Option JsValue) :
    List CaptureParams × List Toast × Option String :=
  let p : CaptureParams :=
    ⟨"selection", kb, some (JsValue.vstr env.currentTabUrl), content, none⟩
  match env.backend p with
  | Except.ok msg => ([p], [⟨"✓ Text captured!", msg⟩], none)
  | Except.error e => ([p], [], some e)

/-- The routing of handleSave on a non-null parsed value: pdf
descriptors first, then url descriptors or url-shaped content, then
selection. -/
def routeNonNull (env : HostEnv) (kb : String) (d : JsValue) :
    List CaptureParams × List Toast × Option String :=
  if isStrField d "type" "pdf" then handlePdfCapture env kb d
  else if isStrField d "type" "url" || isUrlValue env (getField d "content") then
    handleUrlCapture env kb (getField d "content")
  else handleSelectionCapture env kb (getField d "content")

/-- The routing of handleSave.  The very first step reads
`captureData.type`; when the parsed value is null that read throws a
TypeError before any toast or backend call, which the surrounding
catch receives as the failure;  otherwise property access cannot
throw and the non-null routing applies. -/
def routeCapture (env : HostEnv) (kb : String) (d : JsValue) :
    List CaptureParams × List Toast × Option String :=
  match d with
  | JsValue.vnull => ([], [], some env.nullReadErr)
  | _ => routeNonNull env kb d

/-- The dispatch outcome of a save on a given state: classification of
the field contents followed by routing. -/
def dispatchResult (env : HostEnv) (st : SaveState) :
    List CaptureParams × List Toast × Option String :=
  routeCapture env st.selectedKnowledgeBase (parseOrClassify env st.capturedText)

/-- The capture params of the direct PDF upload path. -/
def pdfUploadParams (kb : String) (f : FileV) : CaptureParams :=
  ⟨"pdf", kb, none, none, some f⟩

/-- handlePdfFileUpload: validate the knowledge base, upload the
pending file; on success clear the file and the field, on failure keep
both and toast the error. -/
def handlePdfFileUpload (env : HostEnv) (st : SaveState) (f : FileV) :
    SaveState × List CaptureParams × List Toast :=
  if st.selectedKnowledgeBase = "" then
    (st, [], [⟨"No knowledge base selected", "Please select a knowledge base first."⟩])
  else
    let p := pdfUploadParams st.selectedKnowledgeBase f
    match env.backend p with
    | Except.ok msg =>
      (⟨"", none, st.selectedKnowledgeBase⟩, [p], [⟨"✓ PDF uploaded!", msg⟩])
    | Except.error e => (st, [p], [⟨"Error uploading PDF", e⟩])

/-- handleSave: an uploaded file takes priority; otherwise validate the
field and the knowledge base, classify, route, clear the field on
success and toast the error message on failure. -/
def handleSave (env : HostEnv) (st : SaveState) :
    SaveState × List CaptureParams × List Toast :=
  match st.selectedPdfFile with
  | some f => handlePdfFileUpload env st f
  | none =>
    if trimmed st.capturedText = "" then
      (st, [], [⟨"Nothing to save", "Please enter some text or URL to capture."⟩])
    else if st.selectedKnowledgeBase = "" then
      (st, [], [⟨"No knowledge base selected", "Please select a knowledge base first."⟩])
    else
      match dispatchResult env st with
      | (calls, toasts, none) => (⟨"", none, st.selectedKnowledgeBase⟩, calls, toasts)
      | (calls, toasts, some e) => (st, calls, toasts ++ [⟨"Error saving", e⟩])

/-! ### PDF file selection -/

/-- Rendering of `(bytes / 1024).toFixed(2)`: the double `bytes / 1024`
is exact (a division by a power of two), and toFixed rounds it to two
decimals picking the larger integer on ties, that is round half up;
`(50 * bytes + 256) / 512` is that rounding in hundredths. -/
def kbSize2 (bytes : Nat) : String :=
  let cents := (50 * bytes + 256) / 512
  toString (cents / 100) ++ "." ++
    (if cents % 100 < 10 then "0" else "") ++ toString (cents % 100)

/-- handleFileSelect: ignore an empty selection, reject non-PDF MIME
types with a toast and no state change, accept a PDF as the pending
upload and put its badge into the field.  The middle component records
backend calls made by this handler: always none. -/
def handleFileSelect (st : SaveState) (file : Option FileV) :
    SaveState × List CaptureParams × List Toast :=
  match file with
  | none => (st, [], [])
  | some f =>
    if f.ftype ≠ "application/pdf" then
      (st, [], [⟨"Invalid file type", "Please select a PDF file."⟩])
    else
      (⟨"📄 " ++ f.name ++ " (" ++ kbSize2 f.content.length ++ " KB)",
        some f, st.selectedKnowledgeBase⟩,
       [],
       [⟨"PDF file selected", f.name ++ " ready to upload"⟩])

/-! ## A concrete host environment

Concrete inputs and a concrete `HostEnv` used to instantiate the
universally quantified theorems and to exhibit counterexamples.  The
environment records facts of the JavaScript host on the finitely many
inputs exercised here:

* `JSON.parse` on `descInput` yields the object `descVal`, on
  `pdfDescInput` yields `pdfDescVal`, on `noteInput` yields `noteVal`;
  every other string used below (plain text and bare URLs) throws.
* `new URL(s)` succeeds on the well-formed absolute `https://` and
  `file://` URLs used below and throws on the other strings used
  (which have no scheme).
* `fetch` succeeds on the one PDF URL used, returning the bytes
  `%PDF`, and fails elsewhere.
* the backend accepts every capture with a message naming the
  collection.
-/

/-- A JSON string whose type is neither pdf nor url but whose content
is a well-formed URL. -/
def noteInput : String :=
  "\x7b\"type\":\"note\",\"content\":\"https://example.com\"\x7d"

/-- JSON.parse of `noteInput`. -/
def noteVal : JsValue :=
  JsValue.vobj [("type", JsValue.vstr "note"), ("content", JsValue.vstr "https://example.com")]

/-- The URL of the online PDF exercised below. -/
def demoPdfUrl : String := "https://docs.example.com/files/report.pdf"

/-- The serialized descriptor the /pdf command would produce for it
(empty title, as for an untitled page). -/
def pdfDescInput : String :=
  "\x7b\"type\":\"pdf\",\"source\":\"online\",\"url\":\"" ++ demoPdfUrl ++
  "\",\"title\":\"\"\x7d"

/-- JSON.parse of `pdfDescInput`. -/
def pdfDescVal : JsValue :=
  JsValue.vobj
    [("type", JsValue.vstr "pdf"), ("source", JsValue.vstr "online"),
     ("url", JsValue.vstr demoPdfUrl), ("title", JsValue.vstr "")]

/-- A JSON object with no type field and a plain-text content. -/
def descInput : String := "\x7b\"content\":\"Hello world\"\x7d"

/-- JSON.parse of `descInput`. -/
def descVal : JsValue := JsValue.vobj [("content", JsValue.vstr "Hello world")]

/-- The concrete host environment described above. -/
def jsEnv : HostEnv :=
  ⟨fun s =>
    if s = noteInput then some noteVal
    else if s = pdfDescInput then some pdfDescVal
    else if s = descInput then some descVal
    else none,
   fun v =>
    match v with
    | JsValue.vstr s => strStarts s "https://" || strStarts s "file://"
    | _ => false,
   "https://current.example/page",
   fun v =>
    match v with
    | JsValue.vstr s =>
      if s = demoPdfUrl then Except.ok [37, 80, 68, 70]
      else Except.error "Failed to fetch PDF: Not Found"
    | _ => Except.error "fetch rejected",
   fun p => Except.ok ("Stored in " ++ p.knowledge_base),
   fun _ => "",
   "captureData.url.split is not a function",
   "Cannot read properties of null (reading type)"⟩

/-! ## Helper lemmas -/

/-- A match on url lowercased ending .pdf makes the page a PDF. -/
lemma isPdfOf_of_ends (u t : String) (h : strEnds (strLower u) ".pdf" = true) :
    isPdfOf u t = true := by
  simp [isPdfOf, h]

/-- A Google Drive file-viewer URL makes the page a PDF. -/
lemma isPdfOf_of_drive (u t : String)
    (h1 : strIncludes (strLower u) "drive.google.com" = true)
    (h2 : strIncludes (strLower u) "/file/d/" = true) :
    isPdfOf u t = true := by
  simp [isPdfOf, h1, h2]

/-! ## Claim theorems -/

/-- C1: the PDF classifier of the GET_FRESH_CONTEXT handler satisfies
the spec vectors — a URL whose lowercased form ends with .pdf is a PDF
(online for https, local for file://), a Google Drive file-viewer URL
is an online PDF, and a .docx URL with a non-PDF title is not a PDF —
and in general pdfSource is "local" exactly when the URL starts with
file://, else "online"; the context returned for an active tab carries
exactly these classifications of its URL and title. -/
theorem c1_pdf_classification (title url : String) :
    isPdfOf "https://example.com/report.pdf" title = true ∧
    pdfSourceOf "https://example.com/report.pdf" = "online" ∧
    isPdfOf "file:///C:/docs/report.pdf" title = true ∧
    pdfSourceOf "file:///C:/docs/report.pdf" = "local" ∧
    isPdfOf "https://drive.google.com/file/d/abc123/view" title = true ∧
    pdfSourceOf "https://drive.google.com/file/d/abc123/view" = "online" ∧
    (strEnds (strLower title) ".pdf" = false →
      isPdfOf "https://example.com/report.docx" title = false) ∧
    (pdfSourceOf url = "local" ↔ strStarts url "file://" = true) ∧
    (∀ sel, getFreshContext (some ⟨some url, some title⟩) sel =
      some ⟨sel, url, title, isPdfOf url title, pdfSourceOf url⟩) := by
  refine ⟨isPdfOf_of_ends _ _ (by decide), by decide,
          isPdfOf_of_ends _ _ (by decide), by decide,
          isPdfOf_of_drive _ _ (by decide) (by decide), by decide,
          ?_, ?_, fun sel => rfl⟩
  · intro h
    simp [isPdfOf, h]
    decide
  · cases h : strStarts url "file://" <;> simp [pdfSourceOf, h]

/-- C1 witness: the classifier evaluated at the concrete vectors. -/
theorem c1_pdf_classification_w :
    isPdfOf "https://example.com/report.docx" "Quarterly Report" = false ∧
    pdfSourceOf "https://example.com/report.pdf" = "online" := by
  have h := c1_pdf_classification "Quarterly Report" "https://example.com/report.pdf"
  exact ⟨h.2.2.2.2.2.2.1 (by decide), h.2.1⟩

/-- C5 counterexample: the claim says the capture-url command handler
stores the active tab URL (here https://docs.example.com/file.pdf)
into the buffer so that the next GET_CAPTURED_TEXT returns it.  In the
code the handler only opens the popup: starting from an empty buffer,
after the command fires the buffer is still empty and the first
GET_CAPTURED_TEXT returns the empty string, not the tab URL. -/
theorem c5_shortcut_counterexample :
    (bgStep "" (BgEvent.command "capture-url")).openedPopup = true ∧
    (bgStep "" (BgEvent.command "capture-url")).newText = "" ∧
    (bgStep (bgStep "" (BgEvent.command "capture-url")).newText
      BgEvent.getCapturedText).response = some "" ∧
    ¬ (bgStep (bgStep "" (BgEvent.command "capture-url")).newText
      BgEvent.getCapturedText).response = some "https://docs.example.com/file.pdf" := by
  refine ⟨rfl, rfl, rfl, ?_⟩
  decide

/-- C5 amended: when the capture-url command fires, the handler only
opens the popup and leaves the Ephemeral Capture Buffer unchanged; the
first GET_CAPTURED_TEXT afterwards returns whatever was previously
buffered, not the active tab URL. -/
theorem c5_shortcut_amended (buffer : String) :
    bgStep buffer (BgEvent.command "capture-url") = ⟨buffer, none, true⟩ ∧
    (bgStep (bgStep buffer (BgEvent.command "capture-url")).newText
      BgEvent.getCapturedText).response = some buffer :=
  ⟨rfl, rfl⟩

/-- C5 amended witness: the handler evaluated on a concrete prior
buffer value. -/
theorem c5_shortcut_amended_w :
    bgStep "prior" (BgEvent.command "capture-url") = ⟨"prior", none, true⟩ ∧
    (bgStep (bgStep "prior" (BgEvent.command "capture-url")).newText
      BgEvent.getCapturedText).response = some "prior" :=
  c5_shortcut_amended "prior"

/-- C6: after any sequence of buffer writes ending in `v`, the first
GET_CAPTURED_TEXT returns `v` and clears the buffer, and a second
consecutive GET_CAPTURED_TEXT returns the empty string — every read
clears, and a later write overwrites earlier ones. -/
theorem c6_buffer_take_and_clear (init v : String) (vs : List String) :
    (bgStep (bgRunSets init (vs ++ [v])) BgEvent.getCapturedText).response = some v ∧
    (bgStep (bgRunSets init (vs ++ [v])) BgEvent.getCapturedText).newText = "" ∧
    (bgStep (bgStep (bgRunSets init (vs ++ [v])) BgEvent.getCapturedText).newText
      BgEvent.getCapturedText).response = some "" := by
  have h : bgRunSets init (vs ++ [v]) = v := by
    simp [bgRunSets, List.foldl_append, bgStep]
  rw [h]
  exact ⟨rfl, rfl, rfl⟩

/-- C6 witness: two writes then two reads, evaluated concretely. -/
theorem c6_buffer_take_and_clear_w :
    (bgStep (bgRunSets "" (["first"] ++ ["Hello world"]))
      BgEvent.getCapturedText).response = some "Hello world" ∧
    (bgStep (bgRunSets "" (["first"] ++ ["Hello world"]))
      BgEvent.getCapturedText).newText = "" ∧
    (bgStep (bgStep (bgRunSets "" (["first"] ++ ["Hello world"]))
        BgEvent.getCapturedText).newText
      BgEvent.getCapturedText).response = some "" :=
  c6_buffer_take_and_clear "" "Hello world" ["first"]

/-- C7: the Command Router produces exactly the three fixed commands in
the order /select, /url, /pdf with /select available iff hasSelection,
/url always, /pdf iff isPdf; and for a page context with empty
selectedText, /select is absent from the dropdown filtered to the
available commands. -/
theorem c7_command_router (hs pdf : Bool) (ctx : PageContext) :
    updateAvailableCommands hs pdf =
      [⟨"/select", "Capture selected text", hs⟩,
       ⟨"/url", "Capture current page URL", true⟩,
       ⟨"/pdf", "Capture PDF document", pdf⟩] ∧
    (("/select" ∈ (availableCmds (updateAvailableCommands hs pdf)).map
        CommandDesc.command) ↔ hs = true) ∧
    ("/url" ∈ (availableCmds (updateAvailableCommands hs pdf)).map
        CommandDesc.command) ∧
    (("/pdf" ∈ (availableCmds (updateAvailableCommands hs pdf)).map
        CommandDesc.command) ↔ pdf = true) ∧
    (ctx.selectedText = "" →
      "/select" ∉ (availableCmds
        (updateAvailableCommands (hasSelectionOf ctx) pdf)).map
        CommandDesc.command) := by
  refine ⟨rfl, ?_, ?_, ?_, ?_⟩
  · cases hs <;> cases pdf <;> decide
  · cases hs <;> cases pdf <;> decide
  · cases hs <;> cases pdf <;> decide
  · intro h
    have hsel : hasSelectionOf ctx = false := by simp [hasSelectionOf, h]
    rw [hsel]
    cases pdf <;> decide

/-- C7 witness: on a PDF page with no selection, the dropdown shows no
/select entry. -/
theorem c7_command_router_w :
    ("/select" ∈ (availableCmds (updateAvailableCommands false true)).map
        CommandDesc.command ↔ false = true) ∧
    "/select" ∉ (availableCmds
      (updateAvailableCommands
        (hasSelectionOf ⟨"", "https://a.com/x.pdf", "x.pdf", true, "online"⟩)
        true)).map CommandDesc.command := by
  have h := c7_command_router false true
    ⟨"", "https://a.com/x.pdf", "x.pdf", true, "online"⟩
  exact ⟨h.2.1, h.2.2.2.2 rfl⟩

/-! ### Dispatcher lemmas -/

/-- Past both validations, a save is exactly the dispatch outcome: on
success the field clears, on failure the state is kept and the error is
toasted. -/
lemma handleSave_eq_dispatch (env : HostEnv) (s kb : String)
    (hs : trimmed s ≠ "") (hk : kb ≠ "") :
    handleSave env ⟨s, none, kb⟩ =
      match dispatchResult env ⟨s, none, kb⟩ with
      | (calls, toasts, none) => (⟨"", none, kb⟩, calls, toasts)
      | (calls, toasts, some e) =>
        (⟨s, none, kb⟩, calls, toasts ++ [⟨"Error saving", e⟩]) := by
  simp [handleSave, hs, hk]

/-- The backend calls of a save are those of its dispatch outcome. -/
lemma handleSave_calls (env : HostEnv) (s kb : String)
    (hs : trimmed s ≠ "") (hk : kb ≠ "") :
    (handleSave env ⟨s, none, kb⟩).2.1 = (dispatchResult env ⟨s, none, kb⟩).1 := by
  rw [handleSave_eq_dispatch env s kb hs hk]
  rcases hr : dispatchResult env ⟨s, none, kb⟩ with ⟨calls, toasts, _ | e⟩ <;> rfl

/-- On a non-JSON field the dispatch is by the isUrl test on the raw
text. -/
lemma dispatch_nonjson (env : HostEnv) (s kb : String)
    (hj : env.jsonParse s = none) :
    dispatchResult env ⟨s, none, kb⟩ =
      if env.urlOkVal (JsValue.vstr s) then
        handleUrlCapture env kb (some (JsValue.vstr s))
      else handleSelectionCapture env kb (some (JsValue.vstr s)) := by
  cases hu : env.urlOkVal (JsValue.vstr s) <;>
    simp [dispatchResult, parseOrClassify, hj, hu, routeCapture, routeNonNull,
      isStrField, getField, lookupLast, isUrlValue]

/-- On a JSON field the dispatch routes the parsed descriptor. -/
lemma dispatch_json (env : HostEnv) (s kb : String) (d : JsValue)
    (hj : env.jsonParse s = some d) :
    dispatchResult env ⟨s, none, kb⟩ = routeCapture env kb d := by
  simp [dispatchResult, parseOrClassify, hj]

/-- On every non-null value the routing is the non-null routing. -/
lemma routeCapture_nonnull (env : HostEnv) (kb : String) {d : JsValue}
    (hd : isNullJs d = false) :
    routeCapture env kb d = routeNonNull env kb d := by
  cases d <;> first | rfl | simp [isNullJs] at hd

/-- A value with a string-valued field is not null. -/
lemma isNullJs_false_of_isStrField {d : JsValue} {k s : String}
    (h : isStrField d k s = true) : isNullJs d = false := by
  cases d <;> simp_all [isStrField, getField, isNullJs]

/-- On a string url the file-name chain never throws and computes the
title / last-segment / document.pdf fallback. -/
lemma pdfFileNameE_vstr (env : HostEnv) (d : JsValue) (u : String) :
    pdfFileNameE env d (JsValue.vstr u) = Except.ok (pdfFileName env d u) := by
  unfold pdfFileNameE pdfFileName
  rcases hg : getField d "title" with _ | t
  · simp [lastSegOf]
  · by_cases ht : truthy (some t) <;> simp [ht, lastSegOf]

/-- C2: a JSON field of type pdf with a non-empty string url whose
fetch succeeds produces exactly one pdf capture call carrying the
fetched bytes as a file of MIME type application/pdf, named by the
title / last-path-segment / document.pdf fallback chain: the name is
the title when it is a non-empty string, and the last path segment of
the url (itself defaulting to document.pdf) when the title is absent
or empty. -/
theorem c2_pdf_dispatch (env : HostEnv) (s kb u : String) (d : JsValue)
    (blob : List Nat)
    (hs : trimmed s ≠ "") (hk : kb ≠ "")
    (hj : env.jsonParse s = some d)
    (hty : isStrField d "type" "pdf" = true)
    (hurl : getField d "url" = some (JsValue.vstr u)) (hu : u ≠ "")
    (hfetch : env.fetchCheck (JsValue.vstr u) = Except.ok blob) :
    (handleSave env ⟨s, none, kb⟩).2.1 =
      [⟨"pdf", kb, none, none,
        some ⟨pdfFileName env d u, "application/pdf", blob⟩⟩] ∧
    (∀ t, getField d "title" = some (JsValue.vstr t) → t ≠ "" →
      pdfFileName env d u = t) ∧
    (getField d "title" = none → pdfFileName env d u = lastSegName u) ∧
    (getField d "title" = some (JsValue.vstr "") →
      pdfFileName env d u = lastSegName u) := by
  refine ⟨?_, ?_, ?_, ?_⟩
  · rw [handleSave_calls env s kb hs hk, dispatch_json env s kb d hj,
      routeCapture_nonnull env kb (isNullJs_false_of_isStrField hty)]
    rcases hb : env.backend
        ⟨"pdf", kb, none, none,
         some ⟨pdfFileName env d u, "application/pdf", blob⟩⟩ with msg | e <;>
      simp [routeNonNull, hty, handlePdfCapture, hurl, truthy, hu, hfetch,
        pdfFileNameE_vstr, hb]
  · intro t ht htne
    simp [pdfFileName, ht, truthy, htne, jsToStr]
  · intro ht
    simp [pdfFileName, ht]
  · intro ht
    simp [pdfFileName, ht, truthy]

/-- C2 witness: the /pdf descriptor for the demo online PDF (empty
title) dispatches one pdf capture whose file is named by the last path
segment and carries the fetched bytes. -/
theorem c2_pdf_dispatch_w :
    (handleSave jsEnv ⟨pdfDescInput, none, "research"⟩).2.1 =
      [⟨"pdf", "research", none, none,
        some ⟨"report.pdf", "application/pdf", [37, 80, 68, 70]⟩⟩] := by
  have h := c2_pdf_dispatch jsEnv pdfDescInput "research" demoPdfUrl pdfDescVal
    [37, 80, 68, 70] (by decide) (by decide) rfl rfl rfl (by decide) rfl
  have hn : pdfFileName jsEnv pdfDescVal demoPdfUrl = "report.pdf" := by
    rw [h.2.2.2 rfl]
    rfl
  rw [h.1, hn]

/-- C3: a field that is not JSON and passes the URL-constructor test
dispatches exactly one url capture and no selection capture; a field
that is neither JSON nor a URL dispatches exactly one selection
capture carrying the current tab URL as context. -/
theorem c3_url_vs_selection (env : HostEnv) (s kb : String)
    (hs : trimmed s ≠ "") (hk : kb ≠ "") (hj : env.jsonParse s = none) :
    (env.urlOkVal (JsValue.vstr s) = true →
      (handleSave env ⟨s, none, kb⟩).2.1 =
        [⟨"url", kb, some (JsValue.vstr s), none, none⟩] ∧
      ∀ c ∈ (handleSave env ⟨s, none, kb⟩).2.1, c.ctype ≠ "selection") ∧
    (env.urlOkVal (JsValue.vstr s) = false →
      (handleSave env ⟨s, none, kb⟩).2.1 =
        [⟨"selection", kb, some (JsValue.vstr env.currentTabUrl),
          some (JsValue.vstr s), none⟩]) := by
  constructor
  · intro hu
    have hcalls : (handleSave env ⟨s, none, kb⟩).2.1 =
        [⟨"url", kb, some (JsValue.vstr s), none, none⟩] := by
      rw [handleSave_calls env s kb hs hk, dispatch_nonjson env s kb hj, hu]
      rcases hb : env.backend ⟨"url", kb, some (JsValue.vstr s), none, none⟩
        with msg | e <;> simp [handleUrlCapture, hb]
    refine ⟨hcalls, ?_⟩
    rw [hcalls]
    intro c hc
    rw [List.mem_singleton] at hc
    subst hc
    show ("url" : String) ≠ "selection"
    decide
  · intro hu
    rw [handleSave_calls env s kb hs hk, dispatch_nonjson env s kb hj, hu]
    rcases hb : env.backend ⟨"selection", kb,
        some (JsValue.vstr env.currentTabUrl), some (JsValue.vstr s), none⟩
      with msg | e <;> simp [handleSelectionCapture, hb]

/-- C3 witness: a bare URL dispatches a url capture, plain text a
selection capture with the current tab URL. -/
theorem c3_url_vs_selection_w :
    (handleSave jsEnv ⟨"https://example.com", none, "research"⟩).2.1 =
      [⟨"url", "research", some (JsValue.vstr "https://example.com"),
        none, none⟩] ∧
    (handleSave jsEnv ⟨"Hello world", none, "research"⟩).2.1 =
      [⟨"selection", "research",
        some (JsValue.vstr "https://current.example/page"),
        some (JsValue.vstr "Hello world"), none⟩] := by
  have h1 := c3_url_vs_selection jsEnv "https://example.com" "research"
    (by decide) (by decide) rfl
  have h2 := c3_url_vs_selection jsEnv "Hello world" "research"
    (by decide) (by decide) rfl
  exact ⟨(h1.1 rfl).1, h2.2 rfl⟩

/-- C4 counterexample: the input is valid JSON whose type is "note"
(neither pdf nor url), yet the dispatcher issues a url capture and no
selection capture, because the routing also sends any descriptor whose
content passes the URL-constructor test to the url handler.  Facts of
the host recorded in jsEnv: JSON.parse of the input yields the note
object and new URL on "https://example.com" succeeds. -/
theorem c4_selection_counterexample :
    jsEnv.jsonParse noteInput = some noteVal ∧
    isStrField noteVal "type" "pdf" = false ∧
    isStrField noteVal "type" "url" = false ∧
    (handleSave jsEnv ⟨noteInput, none, "research"⟩).2.1 =
      [⟨"url", "research", some (JsValue.vstr "https://example.com"),
        none, none⟩] ∧
    ∀ c ∈ (handleSave jsEnv ⟨noteInput, none, "research"⟩).2.1,
      c.ctype ≠ "selection" := by
  refine ⟨rfl, rfl, rfl, rfl, ?_⟩
  intro c hc
  rw [show (handleSave jsEnv ⟨noteInput, none, "research"⟩).2.1 =
      [⟨"url", "research", some (JsValue.vstr "https://example.com"),
        none, none⟩] from rfl, List.mem_singleton] at hc
  subst hc
  decide

/-- C4 amended: a JSON field parsing to a non-null value whose type is
neither pdf nor url and whose content does not pass the
URL-constructor test dispatches exactly one selection capture with
descriptor.content as the selection, carrying the current tab URL as
context.  (The null value is excluded: reading its type property
throws before any capture.) -/
theorem c4_selection_dispatch (env : HostEnv) (s kb : String) (d : JsValue)
    (hs : trimmed s ≠ "") (hk : kb ≠ "")
    (hj : env.jsonParse s = some d)
    (hd : isNullJs d = false)
    (h1 : isStrField d "type" "pdf" = false)
    (h2 : isStrField d "type" "url" = false)
    (h3 : isUrlValue env (getField d "content") = false) :
    (handleSave env ⟨s, none, kb⟩).2.1 =
      [⟨"selection", kb, some (JsValue.vstr env.currentTabUrl),
        getField d "content", none⟩] := by
  rw [handleSave_calls env s kb hs hk, dispatch_json env s kb d hj,
    routeCapture_nonnull env kb hd]
  rcases hb : env.backend ⟨"selection", kb,
      some (JsValue.vstr env.currentTabUrl), getField d "content", none⟩
    with msg | e <;>
    simp [routeNonNull, h1, h2, h3, handleSelectionCapture, hb]

/-- C4 amended witness: a JSON object with no type field and plain-text
content dispatches a selection capture carrying that content. -/
theorem c4_selection_dispatch_w :
    (handleSave jsEnv ⟨descInput, none, "research"⟩).2.1 =
      [⟨"selection", "research",
        some (JsValue.vstr "https://current.example/page"),
        some (JsValue.vstr "Hello world"), none⟩] := by
  have h := c4_selection_dispatch jsEnv descInput "research" descVal
    (by decide) (by decide) rfl rfl rfl rfl rfl
  rw [h]
  rfl

/-- C8: with no pending upload and a blank field, or with no collection
selected, a save leaves the state unchanged, performs no backend call
and shows exactly one validation toast. -/
theorem c8_validation (env : HostEnv) (st : SaveState)
    (h : (st.selectedPdfFile = none ∧ trimmed st.capturedText = "") ∨
         st.selectedKnowledgeBase = "") :
    (handleSave env st).1 = st ∧ (handleSave env st).2.1 = [] ∧
    ∃ t, (handleSave env st).2.2 = [t] := by
  obtain ⟨text, file, kb⟩ := st
  cases file with
  | some f =>
    rcases h with ⟨hnone, _⟩ | hkb
    · exact absurd hnone (by simp)
    · simp only at hkb
      subst hkb
      exact ⟨rfl, rfl, _, rfl⟩
  | none =>
    rcases h with ⟨_, htrim⟩ | hkb
    · simp only at htrim
      have hh : handleSave env ⟨text, none, kb⟩ =
          (⟨text, none, kb⟩, [],
           [⟨"Nothing to save", "Please enter some text or URL to capture."⟩]) := by
        simp [handleSave, htrim]
      rw [hh]
      exact ⟨rfl, rfl, _, rfl⟩
    · simp only at hkb
      subst hkb
      by_cases ht : trimmed text = ""
      · have hh : handleSave env ⟨text, none, ""⟩ =
            (⟨text, none, ""⟩, [],
             [⟨"Nothing to save", "Please enter some text or URL to capture."⟩]) := by
          simp [handleSave, ht]
        rw [hh]
        exact ⟨rfl, rfl, _, rfl⟩
      · have hh : handleSave env ⟨text, none, ""⟩ =
            (⟨text, none, ""⟩, [],
             [⟨"No knowledge base selected", "Please select a knowledge base first."⟩]) := by
          simp [handleSave, ht]
        rw [hh]
        exact ⟨rfl, rfl, _, rfl⟩

/-- C8 witness: a whitespace-only field with a selected collection is
rejected without a call and without touching the state. -/
theorem c8_validation_w :
    (handleSave jsEnv ⟨"   ", none, "research"⟩).1 = ⟨"   ", none, "research"⟩ ∧
    (handleSave jsEnv ⟨"   ", none, "research"⟩).2.1 = [] ∧
    ∃ t, (handleSave jsEnv ⟨"   ", none, "research"⟩).2.2 = [t] :=
  c8_validation jsEnv ⟨"   ", none, "research"⟩ (Or.inl ⟨rfl, by decide⟩)

/-- A dispatch that ends without a pending exception issued exactly one
backend call, that call succeeded, and the last toast shown carries
the backend message. -/
lemma route_success (env : HostEnv) (kb : String) (d : JsValue)
    (calls : List CaptureParams) (toasts : List Toast)
    (h : routeCapture env kb d = (calls, toasts, none)) :
    ∃ p msg t, calls = [p] ∧ env.backend p = Except.ok msg ∧
      toasts.getLast? = some t ∧ t.description = msg := by
  have hd : isNullJs d = false := by
    cases d <;> first | rfl | simp [routeCapture] at h
  rw [routeCapture_nonnull env kb hd] at h
  unfold routeNonNull at h
  by_cases h1 : isStrField d "type" "pdf"
  · rw [if_pos h1] at h
    unfold handlePdfCapture at h
    rcases hg : getField d "url" with _ | uval
    · simp [hg] at h
    · by_cases h2 : truthy (some uval) = true
      · rcases hf : env.fetchCheck uval with e | blob
        · simp [hg, h2, hf] at h
        · rcases hn : pdfFileNameE env d uval with e | fileName
          · simp [hg, h2, hf, hn] at h
          · rcases hb : env.backend ⟨"pdf", kb, none, none,
                some ⟨fileName, "application/pdf", blob⟩⟩
              with e | msg
            · simp [hg, h2, hf, hn, hb] at h
            · simp only [hg, h2, if_true, hf, hn, hb, Prod.mk.injEq] at h
              obtain ⟨hc, ht, -⟩ := h
              refine ⟨_, msg, ⟨"✓ PDF captured!", msg⟩, hc.symm, hb, ?_, rfl⟩
              rw [← ht, List.getLast?_append_cons]
              rfl
      · simp only [hg] at h
        rw [if_neg h2] at h
        simp at h
  · rw [if_neg h1] at h
    by_cases h2 : (isStrField d "type" "url" || isUrlValue env (getField d "content")) = true
    · rw [if_pos h2] at h
      unfold handleUrlCapture at h
      rcases hb : env.backend ⟨"url", kb, getField d "content", none, none⟩
        with e | msg
      · simp [hb] at h
      · simp only [hb, Prod.mk.injEq] at h
        obtain ⟨hc, ht, -⟩ := h
        exact ⟨_, msg, _, hc.symm, hb, by rw [← ht]; rfl, rfl⟩
    · rw [if_neg h2] at h
      unfold handleSelectionCapture at h
      rcases hb : env.backend ⟨"selection", kb,
          some (JsValue.vstr env.currentTabUrl), getField d "content", none⟩
        with e | msg
      · simp [hb] at h
      · simp only [hb, Prod.mk.injEq] at h
        obtain ⟨hc, ht, -⟩ := h
        exact ⟨_, msg, _, hc.symm, hb, by rw [← ht]; rfl, rfl⟩

/-- C9: with a collection selected, (a) a text save whose dispatch ends
without an exception clears the field and its single successful
backend call's message is carried by the last toast shown, while a
dispatch ending in an exception leaves the state (field included)
untouched and ends with an error toast carrying the failure reason;
(b) a pending file upload on success clears both the field and the
pending file with a success toast carrying the backend message, and on
failure leaves the state — including the pending file — untouched with
an error toast carrying the reason. -/
theorem c9_dispatch_effects (env : HostEnv) (st : SaveState)
    (hk : st.selectedKnowledgeBase ≠ "") :
    (st.selectedPdfFile = none → trimmed st.capturedText ≠ "" →
      ((dispatchResult env st).2.2 = none →
        (handleSave env st).1 = ⟨"", none, st.selectedKnowledgeBase⟩ ∧
        ∃ p msg t, (handleSave env st).2.1 = [p] ∧
          env.backend p = Except.ok msg ∧
          (handleSave env st).2.2.getLast? = some t ∧ t.description = msg) ∧
      (∀ e, (dispatchResult env st).2.2 = some e →
        (handleSave env st).1 = st ∧
        (handleSave env st).2.2.getLast? = some ⟨"Error saving", e⟩)) ∧
    (∀ f, st.selectedPdfFile = some f →
      (∀ msg, env.backend (pdfUploadParams st.selectedKnowledgeBase f) =
          Except.ok msg →
        handleSave env st =
          (⟨"", none, st.selectedKnowledgeBase⟩,
           [pdfUploadParams st.selectedKnowledgeBase f],
           [⟨"✓ PDF uploaded!", msg⟩])) ∧
      (∀ e, env.backend (pdfUploadParams st.selectedKnowledgeBase f) =
          Except.error e →
        handleSave env st =
          (st, [pdfUploadParams st.selectedKnowledgeBase f],
           [⟨"Error uploading PDF", e⟩]))) := by
  obtain ⟨text, file, kb⟩ := st
  simp only at hk
  constructor
  · intro hfile htrim
    simp only at hfile htrim
    subst hfile
    have hsave := handleSave_eq_dispatch env text kb htrim hk
    constructor
    · intro herr
      rcases hr : dispatchResult env ⟨text, none, kb⟩ with ⟨calls, toasts, err⟩
      rw [hr] at herr
      simp only at herr
      subst herr
      rw [hr] at hsave
      obtain ⟨p, msg, t, hcalls, hb, hlast, hdesc⟩ :=
        route_success env kb (parseOrClassify env text) calls toasts
          (by rw [show routeCapture env kb (parseOrClassify env text) =
            dispatchResult env ⟨text, none, kb⟩ from rfl, hr])
      rw [hsave]
      exact ⟨rfl, p, msg, t, by rw [hcalls], hb, hlast, hdesc⟩
    · intro e herr
      rcases hr : dispatchResult env ⟨text, none, kb⟩ with ⟨calls, toasts, err⟩
      rw [hr] at herr
      simp only at herr
      subst herr
      rw [hr] at hsave
      rw [hsave]
      exact ⟨rfl, by rw [List.getLast?_append_cons]; rfl⟩
  · intro f hfile
    simp only at hfile
    subst hfile
    constructor
    · intro msg hb
      simp [handleSave, handlePdfFileUpload, hk, hb]
    · intro e hb
      simp [handleSave, handlePdfFileUpload, hk, hb]

/-- C9 witness: on the plain-text save in the concrete environment the
dispatch succeeds, the field clears and the last toast carries the
backend message. -/
theorem c9_dispatch_effects_w :
    (handleSave jsEnv ⟨"Hello world", none, "research"⟩).1 =
      ⟨"", none, "research"⟩ ∧
    ∃ p msg t, (handleSave jsEnv ⟨"Hello world", none, "research"⟩).2.1 = [p] ∧
      jsEnv.backend p = Except.ok msg ∧
      (handleSave jsEnv ⟨"Hello world", none, "research"⟩).2.2.getLast? = some t ∧
      t.description = msg := by
  have h := c9_dispatch_effects jsEnv ⟨"Hello world", none, "research"⟩ (by decide)
  exact (h.1 rfl (by decide)).1 rfl

/-- C10: choosing a file with a MIME type other than application/pdf
shows the invalid-file toast, keeps the pending file and the field
unchanged and makes no backend call; a file of type application/pdf
becomes the pending upload; and a pending upload takes priority on
save, issuing one pdf capture of that file regardless of the field
contents and without any text classification. -/
theorem c10_file_select (env : HostEnv) (st : SaveState) (f : FileV) :
    (f.ftype ≠ "application/pdf" →
      handleFileSelect st (some f) =
        (st, [], [⟨"Invalid file type", "Please select a PDF file."⟩])) ∧
    (f.ftype = "application/pdf" →
      (handleFileSelect st (some f)).1.selectedPdfFile = some f ∧
      (handleFileSelect st (some f)).2.1 = []) ∧
    (st.selectedPdfFile = some f → st.selectedKnowledgeBase ≠ "" →
      (handleSave env st).2.1 = [pdfUploadParams st.selectedKnowledgeBase f]) := by
  refine ⟨?_, ?_, ?_⟩
  · intro hm
    simp [handleFileSelect, hm]
  · intro hm
    constructor <;> simp [handleFileSelect, hm]
  · intro hf hk
    obtain ⟨text, file, kb⟩ := st
    simp only at hf hk
    subst hf
    rcases hb : env.backend (pdfUploadParams kb f) with e | msg <;>
      simp [handleSave, handlePdfFileUpload, hk, hb]

/-- C10 witness: a text/plain file is rejected with no state change; a
pending application/pdf upload is sent as one pdf capture call on save
even though the field holds unrelated text. -/
theorem c10_file_select_w :
    handleFileSelect ⟨"", none, "research"⟩
        (some ⟨"notes.txt", "text/plain", [1, 2]⟩) =
      (⟨"", none, "research"⟩, [],
       [⟨"Invalid file type", "Please select a PDF file."⟩]) ∧
    (handleSave jsEnv
        ⟨"unrelated text",
         some ⟨"paper.pdf", "application/pdf", [37, 80, 68, 70]⟩,
         "research"⟩).2.1 =
      [pdfUploadParams "research" ⟨"paper.pdf", "application/pdf", [37, 80, 68, 70]⟩] := by
  have h1 := c10_file_select jsEnv ⟨"", none, "research"⟩
    ⟨"notes.txt", "text/plain", [1, 2]⟩
  have h2 := c10_file_select jsEnv
    ⟨"unrelated text",
     some ⟨"paper.pdf", "application/pdf", [37, 80, 68, 70]⟩, "research"⟩
    ⟨"paper.pdf", "application/pdf", [37, 80, 68, 70]⟩
  exact ⟨h1.1 (by decide), h2.2.2 rfl (by decide)⟩

end PocketLM
